import Mathlib

/-!
Verification development for a weather-observation pipeline.

Part 1 models the time-bucket aggregator of `kleio/kleio.py`
(`BinningOp` and `bin_data`): records are folded into per-station,
per-time-key buckets; each field is aggregated according to a fixed
field-to-policy table.

Part 2 models the adaptive bias-correction recurrence of
`BiasCorrection/BiasCorrection.py` (division damping, exact rational
arithmetic) and `BiasCorrection/gen_bc.py` (tanh damping, real
arithmetic).  `Option` `none` models a NaN input value.
-/

namespace Kleio

/-- The per-field aggregation actions of `BinningOp.Action`. -/
inductive Action where
  | NULL
  | CHECK_EQUAL
  | AVERAGE
  | SUM
  | MIN
  | MAX
  deriving DecidableEq, Repr

/-- A slot of a bucket dictionary: Python `None`, a scalar, or the
`(count, sum)` pair used by the `AVERAGE` action. -/
inductive BinVal where
  | none
  | num (q : ℚ)
  | pair (n : ℕ) (s : ℚ)
  deriving DecidableEq, Repr

/-- `BinningOp.FIELD_MAP` from `kleio.py`, in source order. -/
def FIELD_MAP : List (String × Action) :=
  [("data_logger_id", Action.NULL),
   ("time", Action.NULL),
   ("is_24hr", Action.CHECK_EQUAL),
   ("battery_voltage", Action.AVERAGE),
   ("temperature", Action.AVERAGE),
   ("relative_humidity", Action.AVERAGE),
   ("precipitation", Action.SUM),
   ("snow_depth", Action.AVERAGE),
   ("wind_direction", Action.AVERAGE),
   ("wind_speed_average", Action.AVERAGE),
   ("wind_speed_minimum", Action.MIN),
   ("wind_speed_maximum", Action.MAX),
   ("barometric_pressure", Action.AVERAGE),
   ("equip_temperature", Action.AVERAGE),
   ("solar_pyranometer", Action.AVERAGE),
   ("net_solar", Action.AVERAGE),
   ("soil_moisture_a", Action.AVERAGE),
   ("soil_moisture_b", Action.AVERAGE),
   ("soil_moisture_c", Action.AVERAGE),
   ("soil_temperature_a", Action.AVERAGE),
   ("soil_temperature_b", Action.AVERAGE),
   ("soil_temperature_c", Action.AVERAGE)]

/-- Lookup of a field name in `FIELD_MAP` (Python `FIELD_MAP[key]`,
`none` when `key not in FIELD_MAP`). -/
def fieldAction (key : String) : Option Action :=
  List.lookup key FIELD_MAP

namespace BinningOp

/-- `BinningOp.is_binnable_col`. -/
def is_binnable_col (col_name : String) : Bool :=
  match fieldAction col_name with
  | Option.none => false
  | Option.some a => a ≠ Action.NULL

/-- `BinningOp.mix_in_value`.  The `CHECK_EQUAL` branch mirrors the
Python control flow exactly: when the accumulated value equals the
current one, the `elif` chain falls through and the function returns
Python `None` (modelled as `BinVal.none`). -/
def mix_in_value (old_value : BinVal) (key : String) (cur_value : ℚ) :
    Except String BinVal :=
  match fieldAction key with
  | Option.none =>
      Except.error ("Trying to bin a key for which an action has not been defined: " ++ key)
  | Option.some Action.NULL =>
      Except.error ("Trying to bin a key that should never be binned: " ++ key)
  | Option.some Action.CHECK_EQUAL =>
      match old_value with
      | BinVal.none => Except.ok (BinVal.num cur_value)
      | BinVal.num old =>
          if old = cur_value then Except.ok BinVal.none
          else Except.error ("Values should be constant for key " ++ key)
      | BinVal.pair _ _ =>
          Except.error ("Values should be constant for key " ++ key)
  | Option.some Action.AVERAGE =>
      match old_value with
      | BinVal.none => Except.ok (BinVal.pair 1 (0 + cur_value))
      | BinVal.pair n s => Except.ok (BinVal.pair (n + 1) (s + cur_value))
      | BinVal.num _ => Except.error "TypeError"
  | Option.some Action.SUM =>
      match old_value with
      | BinVal.none => Except.ok (BinVal.num (0 + cur_value))
      | BinVal.num s => Except.ok (BinVal.num (s + cur_value))
      | BinVal.pair _ _ => Except.error "TypeError"
  | Option.some Action.MIN =>
      match old_value with
      | BinVal.none => Except.ok (BinVal.num cur_value)
      | BinVal.num old => Except.ok (BinVal.num (min old cur_value))
      | BinVal.pair _ _ => Except.error "TypeError"
  | Option.some Action.MAX =>
      match old_value with
      | BinVal.none => Except.ok (BinVal.num cur_value)
      | BinVal.num old => Except.ok (BinVal.num (max old cur_value))
      | BinVal.pair _ _ => Except.error "TypeError"

/-- `BinningOp.complete_bin`. -/
def complete_bin (key : String) (cur_bin : BinVal) : Except String BinVal :=
  match fieldAction key with
  | Option.none => Except.error ("KeyError: " ++ key)
  | Option.some Action.NULL =>
      Except.error ("Trying to bin a key that should never be binned: " ++ key)
  | Option.some Action.CHECK_EQUAL => Except.ok cur_bin
  | Option.some Action.AVERAGE =>
      match cur_bin with
      | BinVal.pair n s => Except.ok (BinVal.num (s / (n : ℚ)))
      | _ => Except.error "TypeError"
  | Option.some Action.SUM => Except.ok cur_bin
  | Option.some Action.MIN => Except.ok cur_bin
  | Option.some Action.MAX => Except.ok cur_bin

end BinningOp

/-- A timestamp: we track the calendar date and the hour, the only
parts `bin_data` reads. -/
structure DT where
  year : ℕ
  month : ℕ
  day : ℕ
  hour : ℕ
  deriving DecidableEq, Repr

/-- Gregorian leap-year rule. -/
def isLeap (y : ℕ) : Bool :=
  (y % 4 = 0 && y % 100 ≠ 0) || y % 400 = 0

/-- Days in a month. -/
def daysInMonth (y m : ℕ) : ℕ :=
  if m = 2 then (if isLeap y then 29 else 28)
  else if m = 4 ∨ m = 6 ∨ m = 9 ∨ m = 11 then 30
  else 31

/-- `time - timedelta(days=1)`, keeping the time of day. -/
def prevDay (t : DT) : DT :=
  if t.day > 1 then { t with day := t.day - 1 }
  else if t.month > 1 then
    { t with month := t.month - 1, day := daysInMonth t.year (t.month - 1) }
  else
    { t with year := t.year - 1, month := 12, day := 31 }

/-- Decimal rendering of `n` left-padded with zeros to width `w`. -/
def zeroPad (w : ℕ) (n : ℕ) : String :=
  let s := toString n
  String.mk (List.replicate (w - s.length) '0') ++ s

/-- `strftime("%Y%m%d")`. -/
def fmtYmd (t : DT) : String :=
  zeroPad 4 t.year ++ zeroPad 2 t.month ++ zeroPad 2 t.day

/-- The time key computed by `bin_data` for one record: the date is
rolled back a day when the hour is 0, and under AM/PM binning the AM
half covers hours 1 through 12. -/
def timeKey (bin_type : String) (t : DT) : String :=
  let base_date := if t.hour = 0 then fmtYmd (prevDay t) else fmtYmd t
  if bin_type = "daily" then base_date
  else if 1 ≤ t.hour ∧ t.hour ≤ 12 then base_date ++ "-AM"
  else base_date ++ "-PM"

/-- One raw input record: station id, timestamp and the sensor fields
(an association list in Python dict order). -/
structure Record where
  station : String
  time : DT
  fields : List (String × ℚ)
  deriving DecidableEq, Repr

/-- One bucket dictionary: the `station` and `time` entries plus the
per-field accumulator slots. -/
structure Bucket where
  station : String
  time : String
  slots : List (String × BinVal)
  deriving DecidableEq, Repr

/-- Update an association list in place (Python dict assignment):
replaces the first binding of `k` or appends a new one. -/
def alSet {β : Type} : List (String × β) → String → β → List (String × β)
  | [], k, v => [(k, v)]
  | (k', v') :: rest, k, v =>
      if k' = k then (k', v) :: rest else (k', v') :: alSet rest k v

/-- The fresh bucket created on first sight of a (station, time key)
pair: every field of the record is initialized to `None`. -/
def initBucket (ele : Record) (tk : String) : Bucket :=
  { station := ele.station
    time := tk
    slots := ele.fields.map (fun p => (p.1, BinVal.none)) }

/-- The inner mixing loop of `bin_data`: fold each binnable field of a
record into the bucket; a missing slot is a Python `KeyError`. -/
def mixFields (b : Bucket) : List (String × ℚ) → Except String Bucket
  | [] => Except.ok b
  | (k, v) :: rest =>
      if BinningOp.is_binnable_col k then
        match List.lookup k b.slots with
        | Option.none => Except.error ("KeyError: " ++ k)
        | Option.some old =>
            match BinningOp.mix_in_value old k v with
            | Except.error e => Except.error e
            | Except.ok nv => mixFields { b with slots := alSet b.slots k nv } rest
      else mixFields b rest

/-- The nested `station -> time_key -> bucket` map, in insertion
order. -/
abbrev OutMap : Type := List (String × List (String × Bucket))

/-- The inner map of one station (`out_data_map[dl_id]`, empty when
the station has not been seen, as with `defaultdict`). -/
def innerOf (m : OutMap) (station : String) : List (String × Bucket) :=
  (List.lookup station m).getD []

/-- The bucket a record folds into: the existing one, or a fresh
initialized one on first sight of its (station, time key) pair. -/
def bucketFor (bin_type : String) (m : OutMap) (ele : Record) : Bucket :=
  match List.lookup (timeKey bin_type ele.time) (innerOf m ele.station) with
  | Option.some b0 => b0
  | Option.none => initBucket ele (timeKey bin_type ele.time)

/-- Processing of one record of the main loop of `bin_data`. -/
def binStep (bin_type : String) (m : OutMap) (ele : Record) : Except String OutMap :=
  match mixFields (bucketFor bin_type m ele) ele.fields with
  | Except.error e => Except.error e
  | Except.ok b2 =>
      Except.ok (alSet m ele.station
        (alSet (innerOf m ele.station) (timeKey bin_type ele.time) b2))

/-- The main loop of `bin_data` over all records. -/
def binFold (bin_type : String) : OutMap → List Record → Except String OutMap
  | m, [] => Except.ok m
  | m, ele :: rest =>
      match binStep bin_type m ele with
      | Except.error e => Except.error e
      | Except.ok m2 => binFold bin_type m2 rest

/-- The completion pass over one bucket dictionary: binnable slots are
finalized by `complete_bin`, other entries are left untouched. -/
def completeSlots : List (String × BinVal) → Except String (List (String × BinVal))
  | [] => Except.ok []
  | (k, v) :: rest =>
      if BinningOp.is_binnable_col k then
        match BinningOp.complete_bin k v with
        | Except.error e => Except.error e
        | Except.ok v2 =>
            match completeSlots rest with
            | Except.error e => Except.error e
            | Except.ok l => Except.ok ((k, v2) :: l)
      else
        match completeSlots rest with
        | Except.error e => Except.error e
        | Except.ok l => Except.ok ((k, v) :: l)

/-- Completion of one bucket. -/
def completeBucket (b : Bucket) : Except String Bucket :=
  match completeSlots b.slots with
  | Except.error e => Except.error e
  | Except.ok s => Except.ok { b with slots := s }

/-- All buckets of the map, station-major in insertion order. -/
def allBuckets (m : OutMap) : List Bucket :=
  (m.map (fun p => p.2.map (fun q => q.2))).flatten

/-- Completion of a list of buckets. -/
def completeList : List Bucket → Except String (List Bucket)
  | [] => Except.ok []
  | b :: rest =>
      match completeBucket b with
      | Except.error e => Except.error e
      | Except.ok b2 =>
          match completeList rest with
          | Except.error e => Except.error e
          | Except.ok l => Except.ok (b2 :: l)

/-- `bin_data` from `kleio.py`: bucket every record, then finalize
every bucket, returning the flat output list. -/
def bin_data (bin_type : String) (data : List Record) : Except String (List Bucket) :=
  match binFold bin_type [] data with
  | Except.error e => Except.error e
  | Except.ok m => completeList (allBuckets m)

end Kleio

/-- `TAU` from the bias-correction scripts. -/
def TAU : ℕ := 30

/-- Element access into a series: `none` models both NaN entries and
reads past the series (which the loops never perform in range). -/
def atIdx {α : Type} (l : List (Option α)) (i : ℕ) : Option α :=
  (l.get? i).getD Option.none

namespace BiasCorrection

/-- The update rule of line 126 of `BiasCorrection.py`:
`((TAU-1)/TAU)*cf_today + (1/TAU)*(fcst_today/obs_today)`. -/
def updateCF (cf_cur o f : ℚ) : ℚ :=
  (((TAU : ℚ) - 1) / TAU) * cf_cur + (1 / TAU) * (f / o)

/-- The division damping of line 136 of `BiasCorrection.py`:
`cf_today + (cf_tmrw - cf_today) / (cf_tmrw + cf_today)`. -/
def dampDiv (cf_cur cand : ℚ) : ℚ :=
  cf_cur + (cand - cf_cur) / (cand + cf_cur)

/-- One iteration of the `BiasCorrection.py` correction-factor loop:
the update rule followed by the conditional jump damping. -/
def cfStep (cf_cur : ℚ) (obs fcst : Option ℚ) : ℚ :=
  match obs, fcst with
  | Option.some o, Option.some f =>
      if o ≤ 1 / 100 then cf_cur
      else if updateCF cf_cur o f / cf_cur > 3 / 2 ∧ f + o < 1 then
        dampDiv cf_cur (updateCF cf_cur o f)
      else updateCF cf_cur o f
  | _, _ => cf_cur

/-- The correction factor at index `i`, defined by the forward
recurrence with `cf[0] = 1.0`. -/
def cfFun (obs fcst : ℕ → Option ℚ) : ℕ → ℚ
  | 0 => 1
  | i + 1 => cfStep (cfFun obs fcst i) (obs i) (fcst i)

/-- The full correction-factor column produced by the script body of
`BiasCorrection.py` for one station. -/
def cfList (obs fcst : List (Option ℚ)) : List ℚ :=
  (List.range obs.length).map (cfFun (atIdx obs) (atIdx fcst))

end BiasCorrection

namespace GenBC

/-- The update rule of line 128 of `gen_bc.py`. -/
noncomputable def updateCF (cf_cur o f : ℝ) : ℝ :=
  (((TAU : ℝ) - 1) / TAU) * cf_cur + (1 / TAU) * (f / o)

/-- The tanh damping of line 136 of `gen_bc.py`:
`np.tanh(cf[i+1] - cf_cur) + cf_cur`. -/
noncomputable def dampTanh (cf_cur cand : ℝ) : ℝ :=
  Real.tanh (cand - cf_cur) + cf_cur

/-- One iteration of `gen_station_cf` of `gen_bc.py`.  Note that the
tanh damping of line 136 is applied unconditionally in the update
branch; the jump-condition comment above it is not code. -/
noncomputable def cfStep (cf_cur : ℝ) (obs fcst : Option ℝ) : ℝ :=
  match obs, fcst with
  | Option.some o, Option.some f =>
      if o ≤ 1 / 100 then cf_cur
      else dampTanh cf_cur (updateCF cf_cur o f)
  | _, _ => cf_cur

/-- The correction factor at index `i` for `gen_bc.py`. -/
noncomputable def cfFun (obs fcst : ℕ → Option ℝ) : ℕ → ℝ
  | 0 => 1
  | i + 1 => cfStep (cfFun obs fcst i) (obs i) (fcst i)

/-- The correction-factor column produced by `gen_station_cf`. -/
noncomputable def gen_station_cf (obs fcst : List (Option ℝ)) : List ℝ :=
  (List.range obs.length).map (cfFun (atIdx obs) (atIdx fcst))

end GenBC

/-- A bucket dictionary is well-framed for a station and time key when
its `station` and `time` entries carry exactly these values and every
non-binnable field slot is still `None`. -/
def Kleio.BucketFrame (s t : String) (b : Kleio.Bucket) : Prop :=
  b.station = s ∧ b.time = t ∧
  ∀ p ∈ b.slots, Kleio.BinningOp.is_binnable_col p.1 = false → p.2 = Kleio.BinVal.none

/-- Invariant of the `bin_data` bucket map: every bucket is keyed by
the station and time key of some already-seen record and is
well-framed. -/
def Kleio.MapInv (bin_type : String) (S : List Kleio.Record) (m : Kleio.OutMap) : Prop :=
  ∀ p ∈ m, ∀ q ∈ p.2,
    (∃ ele ∈ S, ele.station = p.1 ∧ Kleio.timeKey bin_type ele.time = q.1) ∧
    Kleio.BucketFrame p.1 q.1 q.2

/-! ## Helper lemmas: series access -/

/-- Entry `j` of the `BiasCorrection.py` correction-factor column. -/
theorem BiasCorrection.cfList_get? (obs fcst : List (Option ℚ)) {j : ℕ}
    (h : j < obs.length) :
    (BiasCorrection.cfList obs fcst).get? j =
      Option.some (BiasCorrection.cfFun (atIdx obs) (atIdx fcst) j) := by
  simp [BiasCorrection.cfList, List.get?_eq_getElem?, List.getElem?_map, List.getElem?_range, h]

/-- Entry `j` of the `gen_bc.py` correction-factor column. -/
theorem GenBC.gen_station_cf_get? (obs fcst : List (Option ℝ)) {j : ℕ}
    (h : j < obs.length) :
    (GenBC.gen_station_cf obs fcst).get? j =
      Option.some (GenBC.cfFun (atIdx obs) (atIdx fcst) j) := by
  simp [GenBC.gen_station_cf, List.get?_eq_getElem?, List.getElem?_map, List.getElem?_range, h]

/-- Unfolding of one step of the `BiasCorrection.py` recurrence. -/
theorem BiasCorrection.cfFun_succ (obs fcst : ℕ → Option ℚ) (i : ℕ) :
    BiasCorrection.cfFun obs fcst (i + 1) =
      BiasCorrection.cfStep (BiasCorrection.cfFun obs fcst i) (obs i) (fcst i) := rfl

/-- Unfolding of one step of the `gen_bc.py` recurrence. -/
theorem GenBC.cfFun_succ_gen (obs fcst : ℕ → Option ℝ) (i : ℕ) :
    GenBC.cfFun obs fcst (i + 1) =
      GenBC.cfStep (GenBC.cfFun obs fcst i) (obs i) (fcst i) := rfl

/-! ## Helper lemmas: step case analysis -/

/-- The stale/invalid guard of `BiasCorrection.py` freezes the factor. -/
theorem BiasCorrection.cfStep_guard (c : ℚ) (obs fcst : Option ℚ)
    (h : obs = Option.none ∨ fcst = Option.none ∨
      ∃ x, obs = Option.some x ∧ x ≤ 1 / 100) :
    BiasCorrection.cfStep c obs fcst = c := by
  rcases h with h | h | ⟨x, hx, hle⟩
  · subst h; rcases fcst with _ | f <;> simp [BiasCorrection.cfStep]
  · subst h; rcases obs with _ | o <;> simp [BiasCorrection.cfStep]
  · subst hx
    rcases fcst with _ | f
    · simp [BiasCorrection.cfStep]
    · simp only [BiasCorrection.cfStep]
      rw [if_pos hle]

/-- The stale/invalid guard of `gen_bc.py` freezes the factor. -/
theorem GenBC.cfStep_guard_gen (c : ℝ) (obs fcst : Option ℝ)
    (h : obs = Option.none ∨ fcst = Option.none ∨
      ∃ x, obs = Option.some x ∧ x ≤ 1 / 100) :
    GenBC.cfStep c obs fcst = c := by
  rcases h with h | h | ⟨x, hx, hle⟩
  · subst h; rcases fcst with _ | f <;> simp [GenBC.cfStep]
  · subst h; rcases obs with _ | o <;> simp [GenBC.cfStep]
  · subst hx
    rcases fcst with _ | f
    · simp [GenBC.cfStep]
    · simp only [GenBC.cfStep]
      rw [if_pos hle]

/-- The `BiasCorrection.py` update branch without jump damping. -/
theorem BiasCorrection.cfStep_update (c o f : ℚ) (ho : ¬ o ≤ 1 / 100)
    (hnj : ¬ (BiasCorrection.updateCF c o f / c > 3 / 2 ∧ f + o < 1)) :
    BiasCorrection.cfStep c (Option.some o) (Option.some f) =
      BiasCorrection.updateCF c o f := by
  simp only [BiasCorrection.cfStep]
  rw [if_neg ho, if_neg hnj]

/-- The `BiasCorrection.py` update branch with jump damping. -/
theorem BiasCorrection.cfStep_damp (c o f : ℚ) (ho : ¬ o ≤ 1 / 100)
    (hj : BiasCorrection.updateCF c o f / c > 3 / 2 ∧ f + o < 1) :
    BiasCorrection.cfStep c (Option.some o) (Option.some f) =
      BiasCorrection.dampDiv c (BiasCorrection.updateCF c o f) := by
  simp only [BiasCorrection.cfStep]
  rw [if_neg ho, if_pos hj]

/-- The `gen_bc.py` update branch: tanh damping is unconditional. -/
theorem GenBC.cfStep_update_gen (c o f : ℝ) (ho : ¬ o ≤ 1 / 100) :
    GenBC.cfStep c (Option.some o) (Option.some f) =
      GenBC.dampTanh c (GenBC.updateCF c o f) := by
  simp only [GenBC.cfStep]
  rw [if_neg ho]

/-! ## Helper lemmas: damping analysis -/

/-- `sinh x < x * cosh x` for positive `x`. -/
theorem sinh_lt_mul_cosh (x : ℝ) (hx : 0 < x) : Real.sinh x < x * Real.cosh x := by
  have mono : StrictMonoOn (fun y : ℝ => y * Real.cosh y - Real.sinh y) (Set.Ici 0) := by
    apply strictMonoOn_of_deriv_pos (convex_Ici 0)
    · exact ((continuous_id.mul Real.continuous_cosh).sub Real.continuous_sinh).continuousOn
    · intro y hy
      rw [interior_Ici, Set.mem_Ioi] at hy
      have h1 : HasDerivAt (fun y : ℝ => y * Real.cosh y - Real.sinh y)
          (1 * Real.cosh y + y * Real.sinh y - Real.cosh y) y :=
        ((hasDerivAt_id y).mul (Real.hasDerivAt_cosh y)).sub (Real.hasDerivAt_sinh y)
      rw [h1.deriv]
      have h2 : 0 < Real.sinh y := Real.sinh_pos_iff.mpr hy
      nlinarith
  have h0 : (0:ℝ) ∈ Set.Ici (0:ℝ) := Set.left_mem_Ici
  have hxm : x ∈ Set.Ici (0:ℝ) := le_of_lt hx
  have := mono h0 hxm hx
  simp at this
  linarith

/-- `tanh x < x` for positive `x`. -/
theorem tanh_lt_self_of_pos {x : ℝ} (hx : 0 < x) : Real.tanh x < x := by
  rw [Real.tanh_eq_sinh_div_cosh, div_lt_iff₀ (Real.cosh_pos x)]
  exact sinh_lt_mul_cosh x hx

/-- `0 < tanh x` for positive `x`. -/
theorem tanh_pos_of_pos {x : ℝ} (hx : 0 < x) : 0 < Real.tanh x := by
  rw [Real.tanh_eq_sinh_div_cosh]
  exact div_pos (Real.sinh_pos_iff.mpr hx) (Real.cosh_pos x)

/-- The tanh damping moves the factor strictly toward the candidate and
never past it. -/
theorem GenBC.dampTanh_between {cf cand : ℝ} (hlt : cf < cand) :
    cf < GenBC.dampTanh cf cand ∧ GenBC.dampTanh cf cand < cand := by
  have hd : 0 < cand - cf := by linarith
  have h1 := tanh_pos_of_pos hd
  have h2 := tanh_lt_self_of_pos hd
  unfold GenBC.dampTanh
  constructor <;> linarith

/-- The division damping always moves strictly above the previous
factor when triggered upward. -/
theorem BiasCorrection.dampDiv_gt {cf cand : ℚ} (hc : 0 < cf) (hlt : cf < cand) :
    cf < BiasCorrection.dampDiv cf cand := by
  have hs : 0 < cand + cf := by linarith
  have hd : 0 < cand - cf := by linarith
  have h1 : 0 < (cand - cf) / (cand + cf) := div_pos hd hs
  unfold BiasCorrection.dampDiv
  linarith

/-- The division damping stays strictly below the candidate exactly
when the candidate and the previous factor sum to more than one. -/
theorem BiasCorrection.dampDiv_lt_iff {cf cand : ℚ} (hc : 0 < cf) (hlt : cf < cand) :
    BiasCorrection.dampDiv cf cand < cand ↔ 1 < cand + cf := by
  have hs : 0 < cand + cf := by linarith
  have hd : 0 < cand - cf := by linarith
  have key : BiasCorrection.dampDiv cf cand < cand ↔
      (cand - cf) / (cand + cf) < cand - cf := by
    unfold BiasCorrection.dampDiv
    constructor <;> intro h <;> linarith
  rw [key, div_lt_iff₀ hs]
  constructor <;> intro h <;> nlinarith

/-- A ratio above `3/2` against a positive denominator forces a strict
increase. -/
theorem lt_of_ratio_gt {K : Type} [LinearOrderedField K] {cf cand : K}
    (hc : 0 < cf) (hr : cand / cf > 3 / 2) : cf < cand := by
  rw [gt_iff_lt, lt_div_iff₀ hc] at hr
  nlinarith

/-- The update rule yields a positive candidate from a positive factor,
a not-near-zero observation, and a nonnegative forecast. -/
theorem BiasCorrection.updateCF_pos {c o f : ℚ} (hc : 0 < c) (ho : 1 / 100 < o)
    (hf : 0 ≤ f) : 0 < BiasCorrection.updateCF c o f := by
  have ho0 : 0 < o := by linarith
  have h1 : 0 ≤ f / o := div_nonneg hf ho0.le
  unfold BiasCorrection.updateCF
  norm_num [TAU]
  nlinarith

/-- One step of the `BiasCorrection.py` recurrence preserves
positivity when the forecast input is nonnegative. -/
theorem BiasCorrection.cfStep_pos {c : ℚ} (obs fcst : Option ℚ) (hc : 0 < c)
    (hf : ∀ v : ℚ, fcst = Option.some v → 0 ≤ v) :
    0 < BiasCorrection.cfStep c obs fcst := by
  rcases obs with _ | o
  · rcases fcst with _ | f <;> simpa [BiasCorrection.cfStep] using hc
  rcases fcst with _ | f
  · simpa [BiasCorrection.cfStep] using hc
  by_cases ho : o ≤ 1 / 100
  · simp only [BiasCorrection.cfStep]
    rw [if_pos ho]
    exact hc
  have hcand : 0 < BiasCorrection.updateCF c o f :=
    BiasCorrection.updateCF_pos hc (by linarith [not_le.mp ho]) (hf f rfl)
  by_cases hj : BiasCorrection.updateCF c o f / c > 3 / 2 ∧ f + o < 1
  · rw [BiasCorrection.cfStep_damp c o f ho hj]
    exact lt_trans hc (BiasCorrection.dampDiv_gt hc (lt_of_ratio_gt hc hj.1))
  · rw [BiasCorrection.cfStep_update c o f ho hj]
    exact hcand

/-- Every `BiasCorrection.py` correction factor is positive when all
forecast values are nonnegative. -/
theorem BiasCorrection.cfFun_pos (obs fcst : ℕ → Option ℚ)
    (hf : ∀ (j : ℕ) (v : ℚ), fcst j = Option.some v → 0 ≤ v) (i : ℕ) :
    0 < BiasCorrection.cfFun obs fcst i := by
  induction i with
  | zero => norm_num [BiasCorrection.cfFun]
  | succ n ih =>
      rw [BiasCorrection.cfFun_succ]
      exact BiasCorrection.cfStep_pos (obs n) (fcst n) ih (hf n)

/-! ## Claims about the bias-correction recurrence -/

/-- C7: for every non-empty series, the first correction factor is
`1.0`, in both `BiasCorrection.py` and `gen_bc.py`, regardless of the
observation and forecast values. -/
theorem C7_initial_cf_one :
    (∀ obs fcst : List (Option ℚ), obs ≠ [] →
        (BiasCorrection.cfList obs fcst).get? 0 = Option.some 1) ∧
    (∀ obs fcst : List (Option ℝ), obs ≠ [] →
        (GenBC.gen_station_cf obs fcst).get? 0 = Option.some 1) := by
  constructor
  · intro obs fcst h
    rw [BiasCorrection.cfList_get? obs fcst (List.length_pos.mpr h)]
    rfl
  · intro obs fcst h
    rw [GenBC.gen_station_cf_get? obs fcst (List.length_pos.mpr h)]
    rfl

/-- Witness for C7 at a concrete one-element series. -/
theorem C7_initial_cf_one_witness :
    ([Option.some (2:ℚ)] ≠ ([] : List (Option ℚ))) ∧
    (BiasCorrection.cfList [Option.some 2] []).get? 0 = Option.some 1 ∧
    (GenBC.gen_station_cf [Option.some (2:ℝ)] []).get? 0 = Option.some 1 :=
  ⟨by simp,
   C7_initial_cf_one.1 [Option.some 2] [] (by simp),
   C7_initial_cf_one.2 [Option.some 2] [] (by simp)⟩

/-- C6: whenever the observation is at most `0.01` or either input is
NaN, the next correction factor equals the current one exactly, in
both scripts. -/
theorem C6_stale_guard_freezes :
    (∀ (obs fcst : List (Option ℚ)) (i : ℕ) (cf_i : ℚ),
        i + 1 < obs.length →
        (BiasCorrection.cfList obs fcst).get? i = Option.some cf_i →
        (atIdx obs i = Option.none ∨ atIdx fcst i = Option.none ∨
          ∃ x, atIdx obs i = Option.some x ∧ x ≤ 1 / 100) →
        (BiasCorrection.cfList obs fcst).get? (i + 1) = Option.some cf_i) ∧
    (∀ (obs fcst : List (Option ℝ)) (i : ℕ) (cf_i : ℝ),
        i + 1 < obs.length →
        (GenBC.gen_station_cf obs fcst).get? i = Option.some cf_i →
        (atIdx obs i = Option.none ∨ atIdx fcst i = Option.none ∨
          ∃ x, atIdx obs i = Option.some x ∧ x ≤ 1 / 100) →
        (GenBC.gen_station_cf obs fcst).get? (i + 1) = Option.some cf_i) := by
  constructor
  · intro obs fcst i cf_i hlen hget hg
    rw [BiasCorrection.cfList_get? obs fcst (show i < obs.length by omega)] at hget
    rw [BiasCorrection.cfList_get? obs fcst hlen, BiasCorrection.cfFun_succ,
      BiasCorrection.cfStep_guard _ _ _ hg]
    exact hget
  · intro obs fcst i cf_i hlen hget hg
    rw [GenBC.gen_station_cf_get? obs fcst (show i < obs.length by omega)] at hget
    rw [GenBC.gen_station_cf_get? obs fcst hlen, GenBC.cfFun_succ_gen,
      GenBC.cfStep_guard_gen _ _ _ hg]
    exact hget

/-- Witness for C6 at a concrete series with a NaN observation. -/
theorem C6_stale_guard_freezes_witness :
    (BiasCorrection.cfList [Option.none, Option.some 1] []).get? 1 = Option.some 1 ∧
    (GenBC.gen_station_cf [Option.none, Option.some 1] []).get? 1 = Option.some 1 :=
  ⟨C6_stale_guard_freezes.1 [Option.none, Option.some 1] [] 0 1 (by norm_num) rfl
      (Or.inl rfl),
   C6_stale_guard_freezes.2 [Option.none, Option.some 1] [] 0 1 (by norm_num) rfl
      (Or.inl rfl)⟩

/-- C2 counterexample: in `gen_bc.py` the tanh damping is applied
unconditionally, so even when the jump condition fails the next factor
differs from the undamped update.  Series `obs = [1, 1]`,
`fcst = [2, 2]`: the candidate is `31/30`, its ratio to `cf[0] = 1` is
below `3/2` and `fcst+obs = 3 ≥ 1`, yet `cf[1] ≠ 31/30`. -/
theorem C2_counterexample :
    ¬ ((1:ℝ) ≤ 1 / 100) ∧
    ¬ (GenBC.updateCF 1 1 2 / 1 > 3 / 2 ∧ (2:ℝ) + 1 < 1) ∧
    (GenBC.gen_station_cf [Option.some 1, Option.some 1]
        [Option.some 2, Option.some 2]).get? 1 ≠
      Option.some (GenBC.updateCF 1 1 2) := by
  refine ⟨by norm_num, ?_, ?_⟩
  · rintro ⟨-, h⟩
    norm_num at h
  · rw [GenBC.gen_station_cf_get? _ _ (by norm_num)]
    have h1 : GenBC.cfFun (atIdx [Option.some 1, Option.some 1])
        (atIdx [Option.some 2, Option.some 2]) 1 =
        GenBC.dampTanh 1 (GenBC.updateCF 1 1 2) := by
      rw [GenBC.cfFun_succ_gen]
      have ho : atIdx [Option.some (1:ℝ), Option.some 1] 0 = Option.some 1 := rfl
      have hf : atIdx [Option.some (2:ℝ), Option.some 2] 0 = Option.some 2 := rfl
      rw [ho, hf]
      show GenBC.cfStep 1 (Option.some 1) (Option.some 2) = _
      rw [GenBC.cfStep_update_gen 1 1 2 (by norm_num)]
    rw [h1]
    intro hcontra
    have h2 : GenBC.dampTanh 1 (GenBC.updateCF 1 1 2) = GenBC.updateCF 1 1 2 :=
      Option.some.inj hcontra
    have hc : GenBC.updateCF 1 1 2 = 31 / 30 := by
      norm_num [GenBC.updateCF, TAU]
    have hb := @GenBC.dampTanh_between 1 (31 / 30) (by norm_num)
    rw [hc] at h2
    linarith [hb.2]

/-- C2 amended: in `BiasCorrection.py` the next factor equals the
undamped update exactly whenever the jump condition fails; in
`gen_bc.py` the update branch instead always applies the tanh damping
to the candidate. -/
theorem C2_amended_update_rule :
    (∀ (obs fcst : List (Option ℚ)) (i : ℕ) (cf_i o f : ℚ),
        i + 1 < obs.length →
        (BiasCorrection.cfList obs fcst).get? i = Option.some cf_i →
        atIdx obs i = Option.some o → atIdx fcst i = Option.some f →
        ¬ o ≤ 1 / 100 →
        ¬ (BiasCorrection.updateCF cf_i o f / cf_i > 3 / 2 ∧ f + o < 1) →
        (BiasCorrection.cfList obs fcst).get? (i + 1) =
          Option.some (BiasCorrection.updateCF cf_i o f)) ∧
    (∀ (obs fcst : List (Option ℝ)) (i : ℕ) (cf_i o f : ℝ),
        i + 1 < obs.length →
        (GenBC.gen_station_cf obs fcst).get? i = Option.some cf_i →
        atIdx obs i = Option.some o → atIdx fcst i = Option.some f →
        ¬ o ≤ 1 / 100 →
        (GenBC.gen_station_cf obs fcst).get? (i + 1) =
          Option.some (GenBC.dampTanh cf_i (GenBC.updateCF cf_i o f))) := by
  constructor
  · intro obs fcst i cf_i o f hlen hget ho hf hno hnj
    rw [BiasCorrection.cfList_get? obs fcst (show i < obs.length by omega)] at hget
    have hcf : BiasCorrection.cfFun (atIdx obs) (atIdx fcst) i = cf_i :=
      Option.some.inj hget
    rw [BiasCorrection.cfList_get? obs fcst hlen, BiasCorrection.cfFun_succ,
      ho, hf, hcf, BiasCorrection.cfStep_update cf_i o f hno hnj]
  · intro obs fcst i cf_i o f hlen hget ho hf hno
    rw [GenBC.gen_station_cf_get? obs fcst (show i < obs.length by omega)] at hget
    have hcf : GenBC.cfFun (atIdx obs) (atIdx fcst) i = cf_i :=
      Option.some.inj hget
    rw [GenBC.gen_station_cf_get? obs fcst hlen, GenBC.cfFun_succ_gen,
      ho, hf, hcf, GenBC.cfStep_update_gen cf_i o f hno]

/-- Witness for the amended C2 at `obs = [1, 1]`, `fcst = [2, 2]`. -/
theorem C2_amended_update_rule_witness :
    (BiasCorrection.cfList [Option.some 1, Option.some 1]
        [Option.some 2, Option.some 2]).get? 1 =
      Option.some (BiasCorrection.updateCF 1 1 2) ∧
    (GenBC.gen_station_cf [Option.some 1, Option.some 1]
        [Option.some 2, Option.some 2]).get? 1 =
      Option.some (GenBC.dampTanh 1 (GenBC.updateCF 1 1 2)) :=
  ⟨C2_amended_update_rule.1 [Option.some 1, Option.some 1]
      [Option.some 2, Option.some 2] 0 1 1 2 (by norm_num) rfl rfl rfl
      (by norm_num)
      (by
        rintro ⟨-, h⟩
        norm_num at h),
   C2_amended_update_rule.2 [Option.some 1, Option.some 1]
      [Option.some 2, Option.some 2] 0 1 1 2 (by norm_num) rfl rfl rfl
      (by norm_num)⟩

/-- C3 counterexample: for the division damping of
`BiasCorrection.py`, at `cf = 1/10`, `obs = 1/10`, `fcst = 31/100` the
jump condition triggers (candidate `1/5`, ratio `2 > 3/2`, sum
`0.41 < 1`) yet the damped value `13/30` overshoots the candidate
instead of lying strictly between `cf` and the candidate. -/
theorem C3_counterexample :
    0 < (1:ℚ) / 10 ∧ (1:ℚ) / 100 < 1 / 10 ∧
    BiasCorrection.updateCF (1 / 10) (1 / 10) (31 / 100) / (1 / 10) > 3 / 2 ∧
    (31:ℚ) / 100 + 1 / 10 < 1 ∧
    ¬ (BiasCorrection.dampDiv (1 / 10)
          (BiasCorrection.updateCF (1 / 10) (1 / 10) (31 / 100)) <
        BiasCorrection.updateCF (1 / 10) (1 / 10) (31 / 100)) := by
  norm_num [BiasCorrection.updateCF, BiasCorrection.dampDiv, TAU]

/-- C3 amended: under the trigger conditions the tanh damping of
`gen_bc.py` always lands strictly between the previous factor and the
candidate; the division damping of `BiasCorrection.py` always exceeds
the previous factor strictly, but stays strictly below the candidate
exactly when candidate plus previous factor exceeds one. -/
theorem C3_amended_damping_bounds :
    (∀ cf_cur o f : ℝ, 0 < cf_cur → 1 / 100 < o →
        GenBC.updateCF cf_cur o f / cf_cur > 3 / 2 → f + o < 1 →
        cf_cur < GenBC.dampTanh cf_cur (GenBC.updateCF cf_cur o f) ∧
        GenBC.dampTanh cf_cur (GenBC.updateCF cf_cur o f) <
          GenBC.updateCF cf_cur o f) ∧
    (∀ cf_cur o f : ℚ, 0 < cf_cur → 1 / 100 < o →
        BiasCorrection.updateCF cf_cur o f / cf_cur > 3 / 2 → f + o < 1 →
        cf_cur < BiasCorrection.dampDiv cf_cur (BiasCorrection.updateCF cf_cur o f) ∧
        (BiasCorrection.dampDiv cf_cur (BiasCorrection.updateCF cf_cur o f) <
            BiasCorrection.updateCF cf_cur o f ↔
          1 < BiasCorrection.updateCF cf_cur o f + cf_cur)) := by
  constructor
  · intro c o f hc _ hr _
    exact GenBC.dampTanh_between (lt_of_ratio_gt hc hr)
  · intro c o f hc _ hr _
    have hlt := lt_of_ratio_gt hc hr
    exact ⟨BiasCorrection.dampDiv_gt hc hlt, BiasCorrection.dampDiv_lt_iff hc hlt⟩

/-- Witness for the amended C3 at `cf = 1/10`, `obs = 1/10`,
`fcst = 31/100`. -/
theorem C3_amended_damping_bounds_witness :
    ((1:ℝ) / 10 < GenBC.dampTanh (1 / 10) (GenBC.updateCF (1 / 10) (1 / 10) (31 / 100)) ∧
      GenBC.dampTanh (1 / 10) (GenBC.updateCF (1 / 10) (1 / 10) (31 / 100)) <
        GenBC.updateCF (1 / 10) (1 / 10) (31 / 100)) ∧
    ((1:ℚ) / 10 < BiasCorrection.dampDiv (1 / 10)
        (BiasCorrection.updateCF (1 / 10) (1 / 10) (31 / 100)) ∧
      (BiasCorrection.dampDiv (1 / 10)
          (BiasCorrection.updateCF (1 / 10) (1 / 10) (31 / 100)) <
          BiasCorrection.updateCF (1 / 10) (1 / 10) (31 / 100) ↔
        1 < BiasCorrection.updateCF (1 / 10) (1 / 10) (31 / 100) + 1 / 10)) :=
  ⟨C3_amended_damping_bounds.1 (1 / 10) (1 / 10) (31 / 100) (by norm_num)
      (by norm_num) (by norm_num [GenBC.updateCF, TAU]) (by norm_num),
   C3_amended_damping_bounds.2 (1 / 10) (1 / 10) (31 / 100) (by norm_num)
      (by norm_num) (by norm_num [BiasCorrection.updateCF, TAU]) (by norm_num)⟩

/-- C9: in the `BiasCorrection.py` variant, with `cf[0] = 1` and all
forecast values nonnegative, every correction factor is strictly
positive (hence nonzero, so the bias-corrected-forecast division never
divides by zero), and the damping denominator, candidate plus current
factor, is nonzero in every update-branch step. -/
theorem C9_cf_positive :
    ∀ (obs fcst : List (Option ℚ)),
      (∀ (j : ℕ) (v : ℚ), atIdx fcst j = Option.some v → 0 ≤ v) →
      (∀ (i : ℕ) (cf_i : ℚ),
          (BiasCorrection.cfList obs fcst).get? i = Option.some cf_i →
          0 < cf_i ∧ cf_i ≠ 0) ∧
      (∀ (i : ℕ) (cf_i o f : ℚ),
          (BiasCorrection.cfList obs fcst).get? i = Option.some cf_i →
          atIdx obs i = Option.some o → atIdx fcst i = Option.some f →
          ¬ o ≤ 1 / 100 →
          BiasCorrection.updateCF cf_i o f + cf_i ≠ 0) := by
  intro obs fcst hf
  have key : ∀ (i : ℕ) (cf_i : ℚ),
      (BiasCorrection.cfList obs fcst).get? i = Option.some cf_i → 0 < cf_i := by
    intro i cf_i hget
    have hlen : i < obs.length := by
      by_contra hge
      rw [BiasCorrection.cfList, List.get?_eq_getElem?] at hget
      rw [List.getElem?_map, List.getElem?_eq_none (by simpa using Nat.le_of_not_lt hge)] at hget
      simp at hget
    rw [BiasCorrection.cfList_get? obs fcst hlen] at hget
    have := BiasCorrection.cfFun_pos (atIdx obs) (atIdx fcst) hf i
    rwa [Option.some.inj hget] at this
  constructor
  · intro i cf_i hget
    exact ⟨key i cf_i hget, (key i cf_i hget).ne'⟩
  · intro i cf_i o f hget ho hfi hno
    have hc := key i cf_i hget
    have hcand : 0 < BiasCorrection.updateCF cf_i o f :=
      BiasCorrection.updateCF_pos hc (by linarith [not_le.mp hno]) (hf i f hfi)
    positivity

/-- Witness for C9 at a concrete series. -/
theorem C9_cf_positive_witness :
    0 < (1:ℚ) ∧ (1:ℚ) ≠ 0 :=
  (C9_cf_positive [Option.some 1, Option.some 1] []
      (by
        intro j v h
        simp [atIdx, List.get?_eq_getElem?] at h)).1 1 1 rfl

/-! ## Helper lemmas: the aggregator -/

/-- Members of an updated association list come from the update or the
original list. -/
theorem Kleio.alSet_mem {β : Type} (l : List (String × β)) (k : String) (v : β)
    (p : String × β) (hp : p ∈ Kleio.alSet l k v) : p = (k, v) ∨ p ∈ l := by
  induction l with
  | nil => simpa [Kleio.alSet] using hp
  | cons hd tl ih =>
      rcases hd with ⟨k', v'⟩
      by_cases hk : k' = k
      · rw [Kleio.alSet, if_pos hk] at hp
        rcases List.mem_cons.mp hp with h | h
        · left; rw [h, hk]
        · right; exact List.mem_cons_of_mem _ h
      · rw [Kleio.alSet, if_neg hk] at hp
        rcases List.mem_cons.mp hp with h | h
        · right; rw [h]; exact List.mem_cons_self _ _
        · rcases ih h with h2 | h2
          · left; exact h2
          · right; exact List.mem_cons_of_mem _ h2

/-- A successful association-list lookup is a member. -/
theorem Kleio.lookup_mem {β : Type} (l : List (String × β)) (k : String) (v : β)
    (h : List.lookup k l = Option.some v) : (k, v) ∈ l := by
  induction l with
  | nil => simp [List.lookup] at h
  | cons hd tl ih =>
      rcases hd with ⟨k', v'⟩
      rw [List.lookup] at h
      cases hbeq : (k == k') with
      | true =>
          simp only [hbeq] at h
          have hk : k = k' := beq_iff_eq.mp hbeq
          have hv : v' = v := Option.some.inj h
          subst hk
          subst hv
          exact List.mem_cons_self _ _
      | false =>
          simp only [hbeq] at h
          exact List.mem_cons_of_mem _ (ih h)

/-- Mixing a record into a well-framed bucket keeps it well-framed:
only binnable slots are rewritten. -/
theorem Kleio.mixFields_frame (s t : String) :
    ∀ (fs : List (String × ℚ)) (b b' : Kleio.Bucket),
      Kleio.mixFields b fs = Except.ok b' →
      Kleio.BucketFrame s t b → Kleio.BucketFrame s t b' := by
  intro fs
  induction fs with
  | nil =>
      intro b b' h hb
      rw [Kleio.mixFields] at h
      rwa [← Except.ok.inj h]
  | cons hd rest ih =>
      intro b b' h hb
      rcases hd with ⟨k, v⟩
      rw [Kleio.mixFields] at h
      by_cases hk : Kleio.BinningOp.is_binnable_col k = true
      · rw [if_pos hk] at h
        cases hl : List.lookup k b.slots with
        | none => simp only [hl] at h; cases h
        | some old =>
            simp only [hl] at h
            cases hm : Kleio.BinningOp.mix_in_value old k v with
            | error e => simp only [hm] at h; cases h
            | ok nv =>
                simp only [hm] at h
                refine ih _ b' h ⟨hb.1, hb.2.1, ?_⟩
                intro p hp hnb
                rcases Kleio.alSet_mem b.slots k nv p hp with heq | hmem
                · exfalso
                  rw [heq] at hnb
                  simp only at hnb
                  rw [hk] at hnb
                  cases hnb
                · exact hb.2.2 p hmem hnb
      · rw [if_neg hk] at h
        exact ih b b' h hb

/-- The bucket a record folds into is well-framed for the record's
station and time key. -/
theorem Kleio.bucketFor_frame (bin_type : String) (S : List Kleio.Record)
    (m : Kleio.OutMap) (ele : Kleio.Record) (hm : Kleio.MapInv bin_type S m) :
    Kleio.BucketFrame ele.station (Kleio.timeKey bin_type ele.time)
      (Kleio.bucketFor bin_type m ele) := by
  rw [Kleio.bucketFor]
  cases hst : List.lookup ele.station m with
  | none =>
      rw [Kleio.innerOf, hst]
      simp only [Option.getD]
      rw [show List.lookup (Kleio.timeKey bin_type ele.time) ([] : List (String × Kleio.Bucket)) = Option.none from rfl]
      refine ⟨rfl, rfl, ?_⟩
      intro p hp _
      rcases List.mem_map.mp hp with ⟨q, _, hq⟩
      rw [← hq]
  | some inner =>
      rw [Kleio.innerOf, hst]
      simp only [Option.getD]
      cases hl : List.lookup (Kleio.timeKey bin_type ele.time) inner with
      | none =>
          refine ⟨rfl, rfl, ?_⟩
          intro p hp _
          rcases List.mem_map.mp hp with ⟨q, _, hq⟩
          rw [← hq]
      | some b0 =>
          have hpm : (ele.station, inner) ∈ m := Kleio.lookup_mem m ele.station inner hst
          have hqm : (Kleio.timeKey bin_type ele.time, b0) ∈ inner :=
            Kleio.lookup_mem inner (Kleio.timeKey bin_type ele.time) b0 hl
          exact (hm _ hpm _ hqm).2

/-- One `bin_data` step preserves the bucket-map invariant. -/
theorem Kleio.binStep_inv (bin_type : String) (S : List Kleio.Record)
    (m m' : Kleio.OutMap) (ele : Kleio.Record) (hS : ele ∈ S)
    (hm : Kleio.MapInv bin_type S m)
    (h : Kleio.binStep bin_type m ele = Except.ok m') :
    Kleio.MapInv bin_type S m' := by
  rw [Kleio.binStep] at h
  cases hmix : Kleio.mixFields (Kleio.bucketFor bin_type m ele) ele.fields with
  | error e => rw [hmix] at h; cases h
  | ok b2 =>
      rw [hmix] at h
      have hm' := Except.ok.inj h
      subst hm'
      intro p hp q hq
      rcases Kleio.alSet_mem m ele.station _ p hp with hpe | hpm
      · -- the updated station entry
        have hp1 : p.1 = ele.station := by rw [hpe]
        have hp2 : p.2 = Kleio.alSet (Kleio.innerOf m ele.station)
            (Kleio.timeKey bin_type ele.time) b2 := by rw [hpe]
        rw [hp2] at hq
        rcases Kleio.alSet_mem _ _ _ q hq with hqe | hqm
        · -- the updated time-key entry: the freshly mixed bucket
          have hq1 : q.1 = Kleio.timeKey bin_type ele.time := by rw [hqe]
          have hq2 : q.2 = b2 := by rw [hqe]
          have hframe := Kleio.mixFields_frame ele.station
            (Kleio.timeKey bin_type ele.time) ele.fields _ b2 hmix
            (Kleio.bucketFor_frame bin_type S m ele hm)
          refine ⟨⟨ele, hS, by rw [hp1], by rw [hq1]⟩, ?_⟩
          rw [hp1, hq1, hq2]
          exact hframe
        · -- an untouched time-key entry of the same station
          cases hst : List.lookup ele.station m with
          | none =>
              rw [Kleio.innerOf, hst] at hqm
              simp only [Option.getD] at hqm
              cases hqm
          | some inner =>
              rw [Kleio.innerOf, hst] at hqm
              simp only [Option.getD] at hqm
              have hpm2 : (ele.station, inner) ∈ m := Kleio.lookup_mem m ele.station inner hst
              have := hm _ hpm2 q hqm
              rw [hp1]
              exact this
      · -- an untouched station entry
        exact hm p hpm q hq

/-- The `bin_data` main loop preserves the bucket-map invariant. -/
theorem Kleio.binFold_inv (bin_type : String) (S : List Kleio.Record) :
    ∀ (l : List Kleio.Record) (m m' : Kleio.OutMap),
      (∀ e ∈ l, e ∈ S) → Kleio.MapInv bin_type S m →
      Kleio.binFold bin_type m l = Except.ok m' →
      Kleio.MapInv bin_type S m' := by
  intro l
  induction l with
  | nil =>
      intro m m' _ hm h
      rw [Kleio.binFold] at h
      rwa [← Except.ok.inj h]
  | cons ele rest ih =>
      intro m m' hl hm h
      rw [Kleio.binFold] at h
      cases hs : Kleio.binStep bin_type m ele with
      | error e => rw [hs] at h; cases h
      | ok m2 =>
          rw [hs] at h
          exact ih m2 m' (fun e he => hl e (List.mem_cons_of_mem _ he))
            (Kleio.binStep_inv bin_type S m m2 ele (hl ele (List.mem_cons_self _ _)) hm hs) h

/-- Non-binnable slots survive the completion pass untouched. -/
theorem Kleio.completeSlots_mem :
    ∀ (sl sl' : List (String × Kleio.BinVal)),
      Kleio.completeSlots sl = Except.ok sl' →
      ∀ p ∈ sl', Kleio.BinningOp.is_binnable_col p.1 = false → p ∈ sl := by
  intro sl
  induction sl with
  | nil =>
      intro sl' h p hp _
      rw [Kleio.completeSlots] at h
      rw [← Except.ok.inj h] at hp
      cases hp
  | cons hd rest ih =>
      intro sl' h p hp hnb
      rcases hd with ⟨k, v⟩
      rw [Kleio.completeSlots] at h
      by_cases hk : Kleio.BinningOp.is_binnable_col k = true
      · rw [if_pos hk] at h
        cases hc : Kleio.BinningOp.complete_bin k v with
        | error e => simp only [hc] at h; cases h
        | ok v2 =>
            simp only [hc] at h
            cases hrest : Kleio.completeSlots rest with
            | error e => simp only [hrest] at h; cases h
            | ok l =>
                simp only [hrest] at h
                rw [← Except.ok.inj h] at hp
                rcases List.mem_cons.mp hp with heq | hmem
                · exfalso
                  rw [heq] at hnb
                  simp only at hnb
                  rw [hk] at hnb
                  cases hnb
                · exact List.mem_cons_of_mem _ (ih l hrest p hmem hnb)
      · rw [if_neg hk] at h
        cases hrest : Kleio.completeSlots rest with
        | error e => simp only [hrest] at h; cases h
        | ok l =>
            simp only [hrest] at h
            rw [← Except.ok.inj h] at hp
            rcases List.mem_cons.mp hp with heq | hmem
            · rw [heq]; exact List.mem_cons_self _ _
            · exact List.mem_cons_of_mem _ (ih l hrest p hmem hnb)

/-- Completing a bucket preserves its frame. -/
theorem Kleio.completeBucket_frame (b b' : Kleio.Bucket)
    (h : Kleio.completeBucket b = Except.ok b') (s t : String)
    (hb : Kleio.BucketFrame s t b) : Kleio.BucketFrame s t b' := by
  rw [Kleio.completeBucket] at h
  cases hc : Kleio.completeSlots b.slots with
  | error e => rw [hc] at h; cases h
  | ok s2 =>
      rw [hc] at h
      rw [← Except.ok.inj h]
      refine ⟨hb.1, hb.2.1, ?_⟩
      intro p hp hnb
      exact hb.2.2 p (Kleio.completeSlots_mem b.slots s2 hc p hp hnb) hnb

/-- Every record of a completed list comes from completing a member of
the input list. -/
theorem Kleio.completeList_mem :
    ∀ (l out : List Kleio.Bucket),
      Kleio.completeList l = Except.ok out →
      ∀ r ∈ out, ∃ b ∈ l, Kleio.completeBucket b = Except.ok r := by
  intro l
  induction l with
  | nil =>
      intro out h r hr
      rw [Kleio.completeList] at h
      rw [← Except.ok.inj h] at hr
      cases hr
  | cons b rest ih =>
      intro out h r hr
      rw [Kleio.completeList] at h
      cases hb : Kleio.completeBucket b with
      | error e => rw [hb] at h; cases h
      | ok b2 =>
          simp only [hb] at h
          cases hrest : Kleio.completeList rest with
          | error e => simp only [hrest] at h; cases h
          | ok l2 =>
              simp only [hrest] at h
              rw [← Except.ok.inj h] at hr
              rcases List.mem_cons.mp hr with heq | hmem
              · exact ⟨b, List.mem_cons_self _ _, by rw [← heq] at hb; exact hb⟩
              · rcases ih l2 hrest r hmem with ⟨b0, hb0, hc0⟩
                exact ⟨b0, List.mem_cons_of_mem _ hb0, hc0⟩

/-- Every bucket of the flattened map is a value of some inner
entry. -/
theorem Kleio.allBuckets_mem (m : Kleio.OutMap) (b : Kleio.Bucket)
    (hb : b ∈ Kleio.allBuckets m) : ∃ p ∈ m, ∃ q ∈ p.2, q.2 = b := by
  rw [Kleio.allBuckets] at hb
  rcases List.mem_flatten.mp hb with ⟨l, hl, hbl⟩
  rcases List.mem_map.mp hl with ⟨p, hp, hpl⟩
  rw [← hpl] at hbl
  rcases List.mem_map.mp hbl with ⟨q, hq, hqb⟩
  exact ⟨p, hp, q, hq, hqb⟩

/-! ## Claims about the aggregator -/

/-- C10: every record output by `bin_data` carries the station of the
raw records of its bucket and the bucket's time key string, and every
field that is not binnable (policy `NULL` or absent from `FIELD_MAP`)
is `None` in the output. -/
theorem C10_output_frame :
    ∀ (bin_type : String) (data : List Kleio.Record) (out : List Kleio.Bucket),
      Kleio.bin_data bin_type data = Except.ok out →
      ∀ r ∈ out,
        (∃ ele ∈ data, r.station = ele.station ∧
          r.time = Kleio.timeKey bin_type ele.time) ∧
        ∀ p ∈ r.slots,
          Kleio.BinningOp.is_binnable_col p.1 = false → p.2 = Kleio.BinVal.none := by
  intro bin_type data out h r hr
  rw [Kleio.bin_data] at h
  cases hfold : Kleio.binFold bin_type [] data with
  | error e => rw [hfold] at h; cases h
  | ok m =>
      rw [hfold] at h
      have hminv : Kleio.MapInv bin_type data m := by
        refine Kleio.binFold_inv bin_type data data [] m (fun e he => he) ?_ hfold
        intro p hp
        cases hp
      rcases Kleio.completeList_mem _ _ h r hr with ⟨b, hb, hcb⟩
      rcases Kleio.allBuckets_mem m b hb with ⟨p, hp, q, hq, hqb⟩
      rcases hminv p hp q hq with ⟨⟨ele, hele, hst, htk⟩, hframe⟩
      rw [hqb] at hframe
      have hframe2 := Kleio.completeBucket_frame b r hcb p.1 q.1 hframe
      exact ⟨⟨ele, hele, by rw [hframe2.1, hst], by rw [hframe2.2.1, htk]⟩, hframe2.2.2⟩

/-- Witness for C10 on a record carrying a `NULL`-policy field
(`data_logger_id`) and an `AVERAGE` field (`temperature`). -/
theorem C10_output_frame_witness :
    (∃ ele ∈ ([⟨"STN", ⟨2019, 1, 5, 3⟩,
          [("data_logger_id", 7), ("temperature", 5)]⟩] : List Kleio.Record),
        (Kleio.Bucket.mk "STN" "20190105"
            [("data_logger_id", Kleio.BinVal.none),
             ("temperature", Kleio.BinVal.num 5)]).station = ele.station ∧
        (Kleio.Bucket.mk "STN" "20190105"
            [("data_logger_id", Kleio.BinVal.none),
             ("temperature", Kleio.BinVal.num 5)]).time =
          Kleio.timeKey "daily" ele.time) ∧
    ∀ p ∈ (Kleio.Bucket.mk "STN" "20190105"
        [("data_logger_id", Kleio.BinVal.none),
         ("temperature", Kleio.BinVal.num 5)]).slots,
      Kleio.BinningOp.is_binnable_col p.1 = false → p.2 = Kleio.BinVal.none :=
  C10_output_frame "daily"
    [⟨"STN", ⟨2019, 1, 5, 3⟩, [("data_logger_id", 7), ("temperature", 5)]⟩]
    [Kleio.Bucket.mk "STN" "20190105"
      [("data_logger_id", Kleio.BinVal.none), ("temperature", Kleio.BinVal.num 5)]]
    (by
      simp [Kleio.bin_data, Kleio.binFold, Kleio.binStep, Kleio.bucketFor, Kleio.innerOf,
        Kleio.mixFields, Kleio.initBucket, Kleio.alSet, Kleio.allBuckets,
        Kleio.completeList, Kleio.completeBucket, Kleio.completeSlots, List.lookup,
        Kleio.BinningOp.mix_in_value, Kleio.BinningOp.complete_bin,
        (show Kleio.timeKey "daily" ⟨2019, 1, 5, 3⟩ = "20190105" from rfl),
        (show Kleio.BinningOp.is_binnable_col "temperature" = true from rfl),
        (show Kleio.BinningOp.is_binnable_col "data_logger_id" = false from rfl),
        (show Kleio.fieldAction "temperature" = Option.some Kleio.Action.AVERAGE from rfl)])
    (Kleio.Bucket.mk "STN" "20190105"
      [("data_logger_id", Kleio.BinVal.none), ("temperature", Kleio.BinVal.num 5)])
    (List.mem_singleton.mpr rfl)

/-- C5: the bucket key uses an adjusted date (the record date minus a
day when the hour is 0) and, under AM/PM binning, the half is AM
exactly for hours 1 through 12 and PM otherwise; in particular a
record timestamped 2019-01-02 00:00 with `Sum`-policy field value 5 is
placed in the 2019-01-01 PM bucket, not in any 2019-01-02 bucket. -/
theorem C5_bucket_key :
    (∀ t : Kleio.DT, t.hour = 0 →
        Kleio.timeKey "daily" t = Kleio.fmtYmd (Kleio.prevDay t) ∧
        Kleio.timeKey "ampm" t = Kleio.fmtYmd (Kleio.prevDay t) ++ "-PM") ∧
    (∀ t : Kleio.DT, t.hour ≠ 0 → Kleio.timeKey "daily" t = Kleio.fmtYmd t) ∧
    (∀ t : Kleio.DT, 1 ≤ t.hour → t.hour ≤ 12 →
        Kleio.timeKey "ampm" t = Kleio.fmtYmd t ++ "-AM") ∧
    (∀ t : Kleio.DT, 13 ≤ t.hour →
        Kleio.timeKey "ampm" t = Kleio.fmtYmd t ++ "-PM") ∧
    Kleio.bin_data "ampm" [⟨"STN", ⟨2019, 1, 2, 0⟩, [("precipitation", 5)]⟩] =
      Except.ok [Kleio.Bucket.mk "STN" "20190101-PM"
        [("precipitation", Kleio.BinVal.num 5)]] := by
  refine ⟨?_, ?_, ?_, ?_, ?_⟩
  · intro t h0
    constructor
    · simp only [Kleio.timeKey]
      rw [if_pos trivial, if_pos h0]
    · simp only [Kleio.timeKey]
      rw [if_neg (show ¬ ("ampm":String) = "daily" from by decide),
        if_neg (show ¬ (1 ≤ t.hour ∧ t.hour ≤ 12) from by omega),
        if_pos h0]
  · intro t h0
    simp only [Kleio.timeKey]
    rw [if_pos trivial, if_neg h0]
  · intro t h1 h2
    simp only [Kleio.timeKey]
    rw [if_neg (show ¬ ("ampm":String) = "daily" from by decide),
      if_pos (show 1 ≤ t.hour ∧ t.hour ≤ 12 from ⟨h1, h2⟩),
      if_neg (show ¬ t.hour = 0 from by omega)]
  · intro t h13
    simp only [Kleio.timeKey]
    rw [if_neg (show ¬ ("ampm":String) = "daily" from by decide),
      if_neg (show ¬ (1 ≤ t.hour ∧ t.hour ≤ 12) from by omega),
      if_neg (show ¬ t.hour = 0 from by omega)]
  · simp [Kleio.bin_data, Kleio.binFold, Kleio.binStep, Kleio.bucketFor, Kleio.innerOf,
      Kleio.mixFields, Kleio.initBucket, Kleio.alSet, Kleio.allBuckets,
      Kleio.completeList, Kleio.completeBucket, Kleio.completeSlots, List.lookup,
      Kleio.BinningOp.mix_in_value, Kleio.BinningOp.complete_bin,
      (show Kleio.timeKey "ampm" ⟨2019, 1, 2, 0⟩ = "20190101-PM" from rfl),
      (show Kleio.BinningOp.is_binnable_col "precipitation" = true from rfl),
      (show Kleio.fieldAction "precipitation" = Option.some Kleio.Action.SUM from rfl)]

/-- Witness for C5 at concrete timestamps. -/
theorem C5_bucket_key_witness :
    (Kleio.timeKey "daily" ⟨2019, 1, 2, 0⟩ =
        Kleio.fmtYmd (Kleio.prevDay ⟨2019, 1, 2, 0⟩) ∧
      Kleio.timeKey "ampm" ⟨2019, 1, 2, 0⟩ =
        Kleio.fmtYmd (Kleio.prevDay ⟨2019, 1, 2, 0⟩) ++ "-PM") ∧
    Kleio.timeKey "daily" ⟨2019, 1, 2, 5⟩ = Kleio.fmtYmd ⟨2019, 1, 2, 5⟩ ∧
    Kleio.timeKey "ampm" ⟨2019, 1, 2, 5⟩ = Kleio.fmtYmd ⟨2019, 1, 2, 5⟩ ++ "-AM" ∧
    Kleio.timeKey "ampm" ⟨2019, 1, 2, 13⟩ = Kleio.fmtYmd ⟨2019, 1, 2, 13⟩ ++ "-PM" :=
  ⟨C5_bucket_key.1 ⟨2019, 1, 2, 0⟩ rfl,
   C5_bucket_key.2.1 ⟨2019, 1, 2, 5⟩ (by norm_num),
   C5_bucket_key.2.2.1 ⟨2019, 1, 2, 5⟩ (by norm_num) (by norm_num),
   C5_bucket_key.2.2.2.1 ⟨2019, 1, 2, 13⟩ (by norm_num)⟩

/-- C8: for a `CHECK_EQUAL` field, `mix_in_value` on an accumulated
value equal to the current one falls through and returns `None`,
resetting the accumulator; hence a bucket receiving exactly two equal
values aggregates the field to `None`, and a differing third value
after two equal ones raises no error. -/
theorem C8_check_equal_reset :
    (∀ q : ℚ, Kleio.BinningOp.mix_in_value (Kleio.BinVal.num q) "is_24hr" q =
        Except.ok Kleio.BinVal.none) ∧
    Kleio.bin_data "daily"
        [⟨"STN", ⟨2019, 1, 5, 3⟩, [("is_24hr", 7)]⟩,
         ⟨"STN", ⟨2019, 1, 5, 4⟩, [("is_24hr", 7)]⟩] =
      Except.ok [Kleio.Bucket.mk "STN" "20190105" [("is_24hr", Kleio.BinVal.none)]] ∧
    Kleio.bin_data "daily"
        [⟨"STN", ⟨2019, 1, 5, 3⟩, [("is_24hr", 7)]⟩,
         ⟨"STN", ⟨2019, 1, 5, 4⟩, [("is_24hr", 7)]⟩,
         ⟨"STN", ⟨2019, 1, 5, 5⟩, [("is_24hr", 9)]⟩] =
      Except.ok [Kleio.Bucket.mk "STN" "20190105"
        [("is_24hr", Kleio.BinVal.num 9)]] := by
  refine ⟨?_, ?_, ?_⟩
  · intro q
    simp [Kleio.BinningOp.mix_in_value,
      (show Kleio.fieldAction "is_24hr" = Option.some Kleio.Action.CHECK_EQUAL from rfl)]
  · norm_num [Kleio.bin_data, Kleio.binFold, Kleio.binStep, Kleio.bucketFor, Kleio.innerOf,
      Kleio.mixFields, Kleio.initBucket, Kleio.alSet, Kleio.allBuckets,
      Kleio.completeList, Kleio.completeBucket, Kleio.completeSlots, List.lookup,
      Kleio.BinningOp.mix_in_value, Kleio.BinningOp.complete_bin,
      (show Kleio.timeKey "daily" ⟨2019, 1, 5, 3⟩ = "20190105" from rfl),
      (show Kleio.timeKey "daily" ⟨2019, 1, 5, 4⟩ = "20190105" from rfl),
      (show Kleio.BinningOp.is_binnable_col "is_24hr" = true from rfl),
      (show Kleio.fieldAction "is_24hr" = Option.some Kleio.Action.CHECK_EQUAL from rfl)]
  · norm_num [Kleio.bin_data, Kleio.binFold, Kleio.binStep, Kleio.bucketFor, Kleio.innerOf,
      Kleio.mixFields, Kleio.initBucket, Kleio.alSet, Kleio.allBuckets,
      Kleio.completeList, Kleio.completeBucket, Kleio.completeSlots, List.lookup,
      Kleio.BinningOp.mix_in_value, Kleio.BinningOp.complete_bin,
      (show Kleio.timeKey "daily" ⟨2019, 1, 5, 3⟩ = "20190105" from rfl),
      (show Kleio.timeKey "daily" ⟨2019, 1, 5, 4⟩ = "20190105" from rfl),
      (show Kleio.timeKey "daily" ⟨2019, 1, 5, 5⟩ = "20190105" from rfl),
      (show Kleio.BinningOp.is_binnable_col "is_24hr" = true from rfl),
      (show Kleio.fieldAction "is_24hr" = Option.some Kleio.Action.CHECK_EQUAL from rfl)]

/-- C1 (code bug): `bin_data` folds `CHECK_EQUAL` values 1, 1, 2 into
one bucket without raising any error, returning 2, even though the
values are not all equal; only an immediately differing pair (1 then
2) raises the integrity error. -/
theorem C1_check_equal_code_behavior :
    Kleio.bin_data "daily"
        [⟨"STN", ⟨2019, 1, 5, 3⟩, [("is_24hr", 1)]⟩,
         ⟨"STN", ⟨2019, 1, 5, 4⟩, [("is_24hr", 1)]⟩,
         ⟨"STN", ⟨2019, 1, 5, 5⟩, [("is_24hr", 2)]⟩] =
      Except.ok [Kleio.Bucket.mk "STN" "20190105"
        [("is_24hr", Kleio.BinVal.num 2)]] ∧
    Kleio.bin_data "daily"
        [⟨"STN", ⟨2019, 1, 5, 3⟩, [("is_24hr", 1)]⟩,
         ⟨"STN", ⟨2019, 1, 5, 4⟩, [("is_24hr", 2)]⟩] =
      Except.error "Values should be constant for key is_24hr" := by
  constructor
  · norm_num [Kleio.bin_data, Kleio.binFold, Kleio.binStep, Kleio.bucketFor, Kleio.innerOf,
      Kleio.mixFields, Kleio.initBucket, Kleio.alSet, Kleio.allBuckets,
      Kleio.completeList, Kleio.completeBucket, Kleio.completeSlots, List.lookup,
      Kleio.BinningOp.mix_in_value, Kleio.BinningOp.complete_bin,
      (show Kleio.timeKey "daily" ⟨2019, 1, 5, 3⟩ = "20190105" from rfl),
      (show Kleio.timeKey "daily" ⟨2019, 1, 5, 4⟩ = "20190105" from rfl),
      (show Kleio.timeKey "daily" ⟨2019, 1, 5, 5⟩ = "20190105" from rfl),
      (show Kleio.BinningOp.is_binnable_col "is_24hr" = true from rfl),
      (show Kleio.fieldAction "is_24hr" = Option.some Kleio.Action.CHECK_EQUAL from rfl)]
  · norm_num [Kleio.bin_data, Kleio.binFold, Kleio.binStep, Kleio.bucketFor, Kleio.innerOf,
      Kleio.mixFields, Kleio.initBucket, Kleio.alSet, Kleio.allBuckets,
      Kleio.completeList, Kleio.completeBucket, Kleio.completeSlots, List.lookup,
      Kleio.BinningOp.mix_in_value, Kleio.BinningOp.complete_bin,
      (show Kleio.timeKey "daily" ⟨2019, 1, 5, 3⟩ = "20190105" from rfl),
      (show Kleio.timeKey "daily" ⟨2019, 1, 5, 4⟩ = "20190105" from rfl),
      (show Kleio.BinningOp.is_binnable_col "is_24hr" = true from rfl),
      (show Kleio.fieldAction "is_24hr" = Option.some Kleio.Action.CHECK_EQUAL from rfl)]
    rfl

/-- C4 counterexample: an input containing the unknown field name
`bogus` aggregates successfully (the field is skipped and output as
`None`), so aggregation does not fail on unknown field names. -/
theorem C4_counterexample :
    Kleio.bin_data "daily" [⟨"STN", ⟨2019, 1, 5, 3⟩, [("bogus", 3)]⟩] =
      Except.ok [Kleio.Bucket.mk "STN" "20190105" [("bogus", Kleio.BinVal.none)]] := by
  simp [Kleio.bin_data, Kleio.binFold, Kleio.binStep, Kleio.bucketFor, Kleio.innerOf,
    Kleio.mixFields, Kleio.initBucket, Kleio.alSet, Kleio.allBuckets,
    Kleio.completeList, Kleio.completeBucket, Kleio.completeSlots,
    (show Kleio.timeKey "daily" ⟨2019, 1, 5, 3⟩ = "20190105" from rfl),
    (show Kleio.BinningOp.is_binnable_col "bogus" = false from rfl)]

/-- C4 amended: a field name absent from `FIELD_MAP` makes
`mix_in_value` raise a configuration error when consulted directly,
but `bin_data` filters every field through `is_binnable_col`, so
unknown fields are skipped per record (left `None` in the output) and
aggregation succeeds. -/
theorem C4_amended_unknown_field :
    (∀ (k : String) (old : Kleio.BinVal) (v : ℚ),
        Kleio.fieldAction k = Option.none →
        (∃ e, Kleio.BinningOp.mix_in_value old k v = Except.error e) ∧
        Kleio.BinningOp.is_binnable_col k = false) ∧
    Kleio.bin_data "daily"
        [⟨"STN", ⟨2019, 1, 5, 3⟩, [("bogus", 3), ("temperature", 5)]⟩] =
      Except.ok [Kleio.Bucket.mk "STN" "20190105"
        [("bogus", Kleio.BinVal.none), ("temperature", Kleio.BinVal.num 5)]] := by
  constructor
  · intro k old v h
    constructor
    · refine ⟨"Trying to bin a key for which an action has not been defined: " ++ k, ?_⟩
      rw [Kleio.BinningOp.mix_in_value.eq_def, h]
    · rw [Kleio.BinningOp.is_binnable_col.eq_def, h]
  · simp [Kleio.bin_data, Kleio.binFold, Kleio.binStep, Kleio.bucketFor, Kleio.innerOf,
      Kleio.mixFields, Kleio.initBucket, Kleio.alSet, Kleio.allBuckets,
      Kleio.completeList, Kleio.completeBucket, Kleio.completeSlots, List.lookup,
      Kleio.BinningOp.mix_in_value, Kleio.BinningOp.complete_bin,
      (show Kleio.timeKey "daily" ⟨2019, 1, 5, 3⟩ = "20190105" from rfl),
      (show Kleio.BinningOp.is_binnable_col "temperature" = true from rfl),
      (show Kleio.BinningOp.is_binnable_col "bogus" = false from rfl),
      (show Kleio.fieldAction "temperature" = Option.some Kleio.Action.AVERAGE from rfl)]

/-- Witness for the amended C4 at the concrete key `bogus`. -/
theorem C4_amended_unknown_field_witness :
    (∃ e, Kleio.BinningOp.mix_in_value Kleio.BinVal.none "bogus" 3 = Except.error e) ∧
    Kleio.BinningOp.is_binnable_col "bogus" = false :=
  C4_amended_unknown_field.1 "bogus" Kleio.BinVal.none 3 rfl
